import Mathlib

/-!
Shallow embedding of the personal tax optimizer (src/main.rs).

Modelling conventions:
* `f64` values are modelled as exact rationals (`ℚ`).
* `i32` keys are modelled as `ℤ`, with the source's casts made explicit:
  `satI32` for the saturating float-to-int cast, `wrap32` for the wrapping
  `i64 as i32` cast used while parsing the configuration.
* Fallible code is modelled with `Option`: a Rust `Result` error, an
  `unwrap` panic and an out-of-bounds indexing panic all become `none`.
* `BTreeMap<i32, f64>` is modelled as an association list `List (ℤ × ℚ)`
  kept in ascending key order by `mapInsert`; iteration order of the map is
  the list order.
-/

/-- A user record (struct `Record`): gross monthly salary, monthly pre-tax
deduction, remaining year bonus, and the cumulative amount already moved
from bonus into salary. -/
structure Record where
  monthly_salary : ℚ
  monthly_tax_deduction : ℚ
  year_bonus : ℚ
  movement : ℚ
deriving DecidableEq

/-- Result of a tax calculation (struct `Tax`): salary tax and bonus tax. -/
structure Tax where
  salary : ℚ
  year_bonus : ℚ
deriving DecidableEq

/-- `Tax::total`: the sum of the two tax components. -/
def Tax.total (t : Tax) : ℚ := t.salary + t.year_bonus

/-- Tax configuration (struct `TaxConfig`): one bracket table per income
stream, each a `BTreeMap<i32, f64>` modelled as an ascending association
list. -/
structure TaxConfig where
  salary : List (ℤ × ℚ)
  year_bonus : List (ℤ × ℚ)
deriving DecidableEq

/-- `Record::adjust`: clamp the step to the remaining bonus, fail
(`anyhow::ensure!`) when the clamped amount is not strictly positive,
otherwise move it from `year_bonus` into `movement`. -/
def Record.adjust (r : Record) (budget : ℚ) : Option Record :=
  let b := min r.year_bonus budget
  if 0 < b then
    some { r with year_bonus := r.year_bonus - b, movement := r.movement + b }
  else
    none

/-- The `total_salary` computed at the top of `TaxConfig::calc`:
`r.movement + 0f64.max(r.monthly_salary - r.monthly_tax_deduction) * 12.0`. -/
def totalSalary (r : Record) : ℚ :=
  r.movement + max 0 (r.monthly_salary - r.monthly_tax_deduction) * 12

/-- The salary-tax `for` loop of `TaxConfig::calc`: walk the bracket list,
add `(min(bound, total_salary) - last) * rate` for each bracket, break at
the first bound ≥ `total_salary`, otherwise update `last` to the bound. -/
def salaryLoop (ts : ℚ) : List (ℤ × ℚ) → ℚ → ℚ → ℚ
  | [], _, acc => acc
  | (rb, rate) :: rest, last, acc =>
    let acc2 := acc + (min (rb : ℚ) ts - last) * rate
    if ts ≤ (rb : ℚ) then acc2 else salaryLoop ts rest (rb : ℚ) acc2

/-- The salary component of `TaxConfig::calc`. -/
def TaxConfig.salaryTax (c : TaxConfig) (r : Record) : ℚ :=
  salaryLoop (totalSalary r) c.salary 0 0

/-- Rust saturating float-to-int cast `as i32`: clamp to
`[i32::MIN, i32::MAX]`. -/
def satI32 (n : ℤ) : ℤ := max (-(2 ^ 31)) (min (2 ^ 31 - 1) n)

/-- `BTreeMap::lower_bound(Bound::Included(m))` followed by `peek_next`:
the first entry (in list order) whose key is ≥ `m`. -/
def lookupGE : List (ℤ × ℚ) → ℤ → Option (ℤ × ℚ)
  | [], _ => none
  | (k, v) :: rest, m => if m ≤ k then some (k, v) else lookupGE rest m

/-- The bonus lookup key of `TaxConfig::calc`:
`(r.year_bonus / 12.0).ceil() as i32`. -/
def bonusKey (r : Record) : ℤ := satI32 ⌈r.year_bonus / 12⌉

/-- `TaxConfig::calc`: progressive salary tax plus flat-rate bonus tax.
The `cursor.peek_next().unwrap()` panic, hit when no bonus bracket key is
≥ `bonusKey r`, is modelled as `none`. -/
def TaxConfig.calcTax (c : TaxConfig) (r : Record) : Option Tax :=
  match lookupGE c.year_bonus (bonusKey r) with
  | none => none
  | some kv => some ⟨c.salaryTax r, kv.2 * r.year_bonus⟩

/-- Rust wrapping integer cast `i64 as i32` (two's-complement truncation),
applied to each `bound` while building a bracket table. -/
def wrap32 (n : ℤ) : ℤ := (n + 2 ^ 31) % 2 ^ 32 - 2 ^ 31

/-- `BTreeMap::insert` on the ascending association list: insert in key
order, replacing the value when the key is already present. -/
def mapInsert (k : ℤ) (v : ℚ) : List (ℤ × ℚ) → List (ℤ × ℚ)
  | [] => [(k, v)]
  | (k2, v2) :: rest =>
    if k < k2 then (k, v) :: (k2, v2) :: rest
    else if k = k2 then (k, v) :: rest
    else (k2, v2) :: mapInsert k v rest

/-- One entry of a `rule` array in the configuration: the results of
`r["bound"].as_integer()` and `r["ratio"].as_float()`. -/
structure RawRule where
  bound : Option ℤ
  rate : Option ℚ
deriving DecidableEq

/-- The raw configuration document: for each of the two sections, the
result of `tbl[name]["rule"].as_array()` (`none` when absent or not an
array). -/
structure RawConfig where
  salary : Option (List RawRule)
  year_bonus : Option (List RawRule)
deriving DecidableEq

/-- The `for` loop of the `parse` closure in `TaxConfig::try_from`: fold
the rule entries into a map, failing when a `bound` or `ratio` field is
missing or has the wrong type. -/
def parseRulesAux (acc : List (ℤ × ℚ)) : List RawRule → Option (List (ℤ × ℚ))
  | [] => some acc
  | e :: rest =>
    match e.bound, e.rate with
    | some b, some v => parseRulesAux (mapInsert (wrap32 b) v acc) rest
    | _, _ => none

/-- The `parse` closure of `TaxConfig::try_from` applied to one section. -/
def parseRules (rules : List RawRule) : Option (List (ℤ × ℚ)) :=
  parseRulesAux [] rules

/-- `TaxConfig::try_from`: parse the `salary` section then the
`year_bonus` section. -/
def TaxConfig.tryFrom (cfg : RawConfig) : Option TaxConfig :=
  match cfg.salary, cfg.year_bonus with
  | some s, some b =>
    match parseRules s, parseRules b with
    | some s2, some b2 => some ⟨s2, b2⟩
    | _, _ => none
  | _, _ => none

/-- `iterator_try_collect` over the comma-split tokens: each token is
modelled by the result of `s.parse::<f64>()`; the collect fails as soon as
one token failed to parse. -/
def collectTokens : List (Option ℚ) → Option (List ℚ)
  | [] => some []
  | none :: _ => none
  | some v :: rest => (collectTokens rest).map fun vs => v :: vs

/-- `parse_record`: collect all tokens, then build the record from
`tokens[0]`, `tokens[1]`, `tokens[2]` with `movement = 0`. The indexing
panic on fewer than three tokens is modelled as `none`. -/
def parse_record (tokens : List (Option ℚ)) : Option Record :=
  match collectTokens tokens with
  | none => none
  | some vals =>
    match vals.get? 0, vals.get? 1, vals.get? 2 with
    | some a, some b, some c => some ⟨a, b, c, 0⟩
    | _, _, _ => none

/-- The optimizer `while` loop of `main`, with explicit fuel: while
`year_bonus > 0`, adjust by 10, recompute the tax, and replace the best
result exactly when the new total is strictly smaller. `none` models both
a propagated failure (`r.adjust(10.0)?` or the calc panic) and running out
of fuel with the guard still true. -/
def optLoop (c : TaxConfig) : Nat → Record → Tax → ℚ → Option (Tax × ℚ)
  | 0, r, best, mv => if 0 < r.year_bonus then none else some (best, mv)
  | n + 1, r, best, mv =>
    if 0 < r.year_bonus then
      match r.adjust 10 with
      | none => none
      | some r2 =>
        match c.calcTax r2 with
        | none => none
        | some v =>
          if v.total < best.total then optLoop c n r2 v r2.movement
          else optLoop c n r2 best mv
    else some (best, mv)

/-- Iterated successful `Record::adjust` steps with the optimizer's fixed
budget of 10, as performed by the sweep. -/
def adjustIter : Nat → Record → Option Record
  | 0, r => some r
  | n + 1, r =>
    match r.adjust 10 with
    | none => none
    | some r2 => adjustIter n r2

/-- Modelled from the claim wording of C1 (spec §4.2): walk the brackets
in ascending threshold order with `last_bound` starting at 0, accumulate
`(min(threshold, total_salary) - last_bound) × ratio` for each bracket,
and stop at the first threshold ≥ `total_salary`. -/
def claimSalaryWalk (ts : ℚ) : List (ℤ × ℚ) → ℚ → ℚ
  | [], _ => 0
  | (t, rate) :: rest, last =>
    (min (t : ℚ) ts - last) * rate +
      (if ts ≤ (t : ℚ) then 0 else claimSalaryWalk ts rest (t : ℚ))

/-- Modelled from the claim wording of C5 (spec §4.2): the sum of each
bracket's rate applied to its full band `threshold - previous threshold`,
independent of the income; the income in excess of the largest threshold
contributes nothing. -/
def fullBands : List (ℤ × ℚ) → ℚ → ℚ
  | [], _ => 0
  | (t, rate) :: rest, prev => ((t : ℚ) - prev) * rate + fullBands rest (t : ℚ)

example : salaryLoop 3000 [(1000, 1/10), (5000, 1/5)] 0 0 = 500 := by
  norm_num [salaryLoop]

example :
    TaxConfig.calcTax ⟨[(3000, 1/20), (10000, 1/10)], [(1000, 1/20), (999999, 1/10)]⟩
      ⟨2000, 500, 6000, 0⟩ = some ⟨850, 300⟩ := by
  norm_num [TaxConfig.calcTax, TaxConfig.salaryTax, lookupGE, bonusKey, satI32,
    salaryLoop, totalSalary]

/-! ## Salary-tax lemmas -/

theorem salaryLoop_eq_walk (ts : ℚ) (tbl : List (ℤ × ℚ)) :
    ∀ last acc, salaryLoop ts tbl last acc = acc + claimSalaryWalk ts tbl last := by
  induction tbl with
  | nil => intro last acc; simp [salaryLoop, claimSalaryWalk]
  | cons hd tl ih =>
    intro last acc
    obtain ⟨rb, rate⟩ := hd
    by_cases h : ts ≤ (rb : ℚ)
    · simp only [salaryLoop, claimSalaryWalk, if_pos h]
      ring
    · simp only [salaryLoop, claimSalaryWalk, if_neg h, ih]
      ring

theorem salaryLoop_all_lt (ts : ℚ) (tbl : List (ℤ × ℚ))
    (h : ∀ p ∈ tbl, (p.1 : ℚ) < ts) :
    ∀ last acc, salaryLoop ts tbl last acc = acc + fullBands tbl last := by
  induction tbl with
  | nil => intro last acc; simp [salaryLoop, fullBands]
  | cons hd tl ih =>
    intro last acc
    obtain ⟨rb, rate⟩ := hd
    have hrb : (rb : ℚ) < ts := h (rb, rate) (List.mem_cons_self _ _)
    have htl : ∀ p ∈ tl, (p.1 : ℚ) < ts := fun p hp => h p (List.mem_cons_of_mem _ hp)
    simp only [salaryLoop, fullBands, if_neg (not_le.mpr hrb), ih htl,
      min_eq_left hrb.le]
    ring

/-! ## Lookup lemmas -/

theorem lookupGE_eq_none_iff (tbl : List (ℤ × ℚ)) (m : ℤ) :
    lookupGE tbl m = none ↔ ∀ p ∈ tbl, p.1 < m := by
  induction tbl with
  | nil => simp [lookupGE]
  | cons hd tl ih =>
    obtain ⟨k, v⟩ := hd
    by_cases h : m ≤ k
    · simp only [lookupGE, if_pos h]
      constructor
      · intro hc; cases hc
      · intro hall
        exact absurd (hall (k, v) (List.mem_cons_self _ _)) (not_lt.mpr h)
    · simp only [lookupGE, if_neg h, ih, List.mem_cons]
      constructor
      · rintro hall p (rfl | hp)
        · exact not_le.mp h
        · exact hall p hp
      · intro hall p hp
        exact hall p (Or.inr hp)

theorem lookupGE_isSome_iff (tbl : List (ℤ × ℚ)) (m : ℤ) :
    (lookupGE tbl m).isSome ↔ ∃ p ∈ tbl, m ≤ p.1 := by
  rw [Option.isSome_iff_ne_none, ne_eq, lookupGE_eq_none_iff]
  push_neg
  rfl

theorem lookupGE_min (tbl : List (ℤ × ℚ)) (m : ℤ)
    (hsort : List.Pairwise (fun p q : ℤ × ℚ => p.1 < q.1) tbl)
    (hex : ∃ p ∈ tbl, m ≤ p.1) :
    ∃ k v, lookupGE tbl m = some (k, v) ∧ (k, v) ∈ tbl ∧ m ≤ k ∧
      ∀ p ∈ tbl, m ≤ p.1 → k ≤ p.1 := by
  induction tbl with
  | nil => simp at hex
  | cons hd tl ih =>
    obtain ⟨k0, v0⟩ := hd
    rw [List.pairwise_cons] at hsort
    by_cases h : m ≤ k0
    · refine ⟨k0, v0, ?_, List.mem_cons_self _ _, h, ?_⟩
      · simp [lookupGE, h]
      · intro p hp _
        rcases List.mem_cons.mp hp with rfl | hp
        · exact le_refl _
        · exact (hsort.1 p hp).le
    · obtain ⟨p, hp, hmp⟩ := hex
      rcases List.mem_cons.mp hp with rfl | hp
      · exact absurd hmp h
      · obtain ⟨k, v, h1, h2, h3, h4⟩ := ih hsort.2 ⟨p, hp, hmp⟩
        refine ⟨k, v, ?_, List.mem_cons_of_mem _ h2, h3, ?_⟩
        · simp [lookupGE, h, h1]
        · intro q hq hmq
          rcases List.mem_cons.mp hq with rfl | hq
          · exact absurd hmq h
          · exact h4 q hq hmq

theorem satI32_eq_self (n : ℤ) (h1 : -(2 ^ 31) ≤ n) (h2 : n ≤ 2 ^ 31 - 1) :
    satI32 n = n := by
  unfold satI32
  rw [min_eq_right h2, max_eq_right h1]

theorem bonusKey_le_of_le (r2 r : Record) (h : r2.year_bonus ≤ r.year_bonus) :
    bonusKey r2 ≤ bonusKey r := by
  unfold bonusKey satI32
  have hc : ⌈r2.year_bonus / 12⌉ ≤ ⌈r.year_bonus / 12⌉ := by
    gcongr
  exact max_le_max (le_refl _) (min_le_min (le_refl _) hc)

/-! ## Claim C1: progressive salary tax -/

/-- C1: for every record with nonnegative monthly salary, deduction and
movement, and every non-empty salary table with strictly ascending
thresholds, the salary tax computed by `TaxConfig::calc` equals the walk
described by the spec: total_salary = movement + 12 × max(0,
monthly_salary − monthly_tax_deduction), then accumulate
(min(threshold, total_salary) − last_bound) × ratio in ascending order,
stopping at the first threshold ≥ total_salary. -/
theorem c1_salary_progressive_walk (c : TaxConfig) (r : Record)
    (hms : 0 ≤ r.monthly_salary) (hded : 0 ≤ r.monthly_tax_deduction)
    (hmv : 0 ≤ r.movement) (hne : c.salary ≠ [])
    (hsort : List.Pairwise (fun p q : ℤ × ℚ => p.1 < q.1) c.salary) :
    c.salaryTax r =
      claimSalaryWalk
        (r.movement + 12 * max 0 (r.monthly_salary - r.monthly_tax_deduction))
        c.salary 0 := by
  have hts : r.movement + 12 * max 0 (r.monthly_salary - r.monthly_tax_deduction)
      = totalSalary r := by
    unfold totalSalary; ring
  rw [hts, TaxConfig.salaryTax, salaryLoop_eq_walk, zero_add]

/-- Witness for C1 at a concrete record and table. -/
theorem c1_salary_progressive_walk_witness :
    (0 : ℚ) ≤ 100 ∧ (0 : ℚ) ≤ 10 ∧ (0 : ℚ) ≤ 0 ∧
    ([((1000 : ℤ), (1 : ℚ)/10)] ≠ []) ∧
    List.Pairwise (fun p q : ℤ × ℚ => p.1 < q.1) [((1000 : ℤ), (1 : ℚ)/10)] ∧
    TaxConfig.salaryTax ⟨[(1000, 1/10)], []⟩ ⟨100, 10, 0, 0⟩ =
      claimSalaryWalk ((0 : ℚ) + 12 * max 0 ((100 : ℚ) - 10)) [((1000 : ℤ), (1 : ℚ)/10)] 0 :=
  ⟨by norm_num, by norm_num, le_refl 0, by simp, by simp,
    c1_salary_progressive_walk ⟨[(1000, 1/10)], []⟩ ⟨100, 10, 0, 0⟩
      (by norm_num) (by norm_num) (le_refl 0) (by simp) (by simp)⟩

/-! ## Claim C5: income above the top threshold is untaxed -/

/-- C5: when `total_salary` strictly exceeds every threshold of the salary
table, the loop exhausts all brackets and the tax equals the sum of the
full bracket bands — a value independent of `total_salary`, so the excess
beyond the largest threshold contributes no additional tax. -/
theorem c5_top_bracket_no_excess_tax (c : TaxConfig) (r : Record)
    (hall : ∀ p ∈ c.salary, (p.1 : ℚ) < totalSalary r) :
    c.salaryTax r = fullBands c.salary 0 ∧
    ∀ r2 : Record, (∀ p ∈ c.salary, (p.1 : ℚ) < totalSalary r2) →
      c.salaryTax r2 = c.salaryTax r := by
  have key : ∀ s : Record, (∀ p ∈ c.salary, (p.1 : ℚ) < totalSalary s) →
      c.salaryTax s = fullBands c.salary 0 := by
    intro s hs
    rw [TaxConfig.salaryTax, salaryLoop_all_lt _ _ hs, zero_add]
  refine ⟨key r hall, fun r2 h2 => ?_⟩
  rw [key r hall, key r2 h2]

/-- Witness for C5: a record whose annualized salary exceeds the only
threshold. -/
theorem c5_top_bracket_no_excess_tax_witness :
    (∀ p ∈ [((10 : ℤ), (1 : ℚ)/10)], (p.1 : ℚ) < totalSalary ⟨10, 0, 0, 0⟩) ∧
    (TaxConfig.salaryTax ⟨[(10, 1/10)], []⟩ ⟨10, 0, 0, 0⟩ =
        fullBands [((10 : ℤ), (1 : ℚ)/10)] 0 ∧
      ∀ r2 : Record, (∀ p ∈ [((10 : ℤ), (1 : ℚ)/10)], (p.1 : ℚ) < totalSalary r2) →
        TaxConfig.salaryTax ⟨[(10, 1/10)], []⟩ r2 =
          TaxConfig.salaryTax ⟨[(10, 1/10)], []⟩ ⟨10, 0, 0, 0⟩) :=
  ⟨by norm_num [totalSalary],
    c5_top_bracket_no_excess_tax ⟨[(10, 1/10)], []⟩ ⟨10, 0, 0, 0⟩
      (by norm_num [totalSalary])⟩

/-! ## Claim C2: flat-rate bonus tax -/

/-- C2: for every record with nonnegative bonus and every sorted bonus
table (with keys in `i32` range) containing some threshold ≥
⌈year_bonus / 12⌉, `TaxConfig::calc` returns the bonus tax `rate ×
year_bonus`, where `rate` belongs to the bracket with the smallest
threshold ≥ ⌈year_bonus / 12⌉ — a single flat rate, never a progressive
accumulation. -/
theorem c2_bonus_flat_rate (c : TaxConfig) (r : Record)
    (h0 : 0 ≤ r.year_bonus)
    (hsort : List.Pairwise (fun p q : ℤ × ℚ => p.1 < q.1) c.year_bonus)
    (hrange : ∀ p ∈ c.year_bonus, p.1 ≤ 2 ^ 31 - 1)
    (hex : ∃ p ∈ c.year_bonus, ⌈r.year_bonus / 12⌉ ≤ p.1) :
    ∃ k rate, (k, rate) ∈ c.year_bonus ∧ ⌈r.year_bonus / 12⌉ ≤ k ∧
      (∀ p ∈ c.year_bonus, ⌈r.year_bonus / 12⌉ ≤ p.1 → k ≤ p.1) ∧
      c.calcTax r = some ⟨c.salaryTax r, rate * r.year_bonus⟩ := by
  have hceil0 : (0 : ℤ) ≤ ⌈r.year_bonus / 12⌉ :=
    Int.ceil_nonneg (by positivity)
  obtain ⟨p, hp, hmp⟩ := hex
  have hkey : bonusKey r = ⌈r.year_bonus / 12⌉ := by
    unfold bonusKey
    exact satI32_eq_self _ (by linarith) (le_trans hmp (hrange p hp))
  obtain ⟨k, v, h1, h2, h3, h4⟩ :=
    lookupGE_min c.year_bonus ⌈r.year_bonus / 12⌉ hsort ⟨p, hp, hmp⟩
  refine ⟨k, v, h2, h3, h4, ?_⟩
  unfold TaxConfig.calcTax
  rw [hkey, h1]

/-- Witness for C2: bonus 24 and a single bracket at threshold 2. -/
theorem c2_bonus_flat_rate_witness :
    (0 : ℚ) ≤ (⟨0, 0, 24, 0⟩ : Record).year_bonus ∧
    List.Pairwise (fun p q : ℤ × ℚ => p.1 < q.1) [((2 : ℤ), (1 : ℚ)/10)] ∧
    (∀ p ∈ [((2 : ℤ), (1 : ℚ)/10)], p.1 ≤ 2 ^ 31 - 1) ∧
    (∃ p ∈ [((2 : ℤ), (1 : ℚ)/10)],
      ⌈(⟨0, 0, 24, 0⟩ : Record).year_bonus / 12⌉ ≤ p.1) ∧
    ∃ k rate, (k, rate) ∈ [((2 : ℤ), (1 : ℚ)/10)] ∧
      ⌈(⟨0, 0, 24, 0⟩ : Record).year_bonus / 12⌉ ≤ k ∧
      (∀ p ∈ [((2 : ℤ), (1 : ℚ)/10)],
        ⌈(⟨0, 0, 24, 0⟩ : Record).year_bonus / 12⌉ ≤ p.1 → k ≤ p.1) ∧
      TaxConfig.calcTax ⟨[], [(2, 1/10)]⟩ ⟨0, 0, 24, 0⟩ =
        some ⟨TaxConfig.salaryTax ⟨[], [(2, 1/10)]⟩ ⟨0, 0, 24, 0⟩,
          rate * (⟨0, 0, 24, 0⟩ : Record).year_bonus⟩ :=
  ⟨by norm_num, by simp, by norm_num,
    ⟨(2, 1/10), by simp, by norm_num⟩,
    c2_bonus_flat_rate ⟨[], [(2, 1/10)]⟩ ⟨0, 0, 24, 0⟩
      (by norm_num) (by simp) (by norm_num)
      ⟨(2, 1/10), by simp, by norm_num⟩⟩

/-! ## Claim C6: bonus beyond the top bracket fails the calculation -/

/-- C6: when the bonus lookup key ⌈year_bonus / 12⌉ (within `i32` range)
strictly exceeds every threshold of the bonus table — in particular when
the table is empty — `TaxConfig::calc` fails (the `unwrap` panic,
modelled as `none`) instead of silently defaulting to some rate. -/
theorem c6_bonus_lookup_fails (c : TaxConfig) (r : Record)
    (h0 : 0 ≤ r.year_bonus)
    (hrange : ⌈r.year_bonus / 12⌉ ≤ 2 ^ 31 - 1)
    (hall : ∀ p ∈ c.year_bonus, p.1 < ⌈r.year_bonus / 12⌉) :
    c.calcTax r = none := by
  have hceil0 : (0 : ℤ) ≤ ⌈r.year_bonus / 12⌉ :=
    Int.ceil_nonneg (by positivity)
  have hkey : bonusKey r = ⌈r.year_bonus / 12⌉ := by
    unfold bonusKey
    exact satI32_eq_self _ (by linarith) hrange
  unfold TaxConfig.calcTax
  rw [hkey, (lookupGE_eq_none_iff _ _).mpr hall]

/-- Witness for C6: bonus 120 against a table whose only threshold is 5. -/
theorem c6_bonus_lookup_fails_witness :
    (0 : ℚ) ≤ (⟨0, 0, 120, 0⟩ : Record).year_bonus ∧
    ⌈(⟨0, 0, 120, 0⟩ : Record).year_bonus / 12⌉ ≤ 2 ^ 31 - 1 ∧
    (∀ p ∈ [((5 : ℤ), (1 : ℚ)/10)],
      p.1 < ⌈(⟨0, 0, 120, 0⟩ : Record).year_bonus / 12⌉) ∧
    TaxConfig.calcTax ⟨[], [(5, 1/10)]⟩ ⟨0, 0, 120, 0⟩ = none :=
  ⟨by norm_num, by norm_num, by norm_num,
    c6_bonus_lookup_fails ⟨[], [(5, 1/10)]⟩ ⟨0, 0, 120, 0⟩
      (by norm_num) (by norm_num) (by norm_num)⟩

/-- C6 counterexample: the claim fails in the `i32` saturation regime.
With year_bonus = 12 * 2^31 the true ceiling ⌈year_bonus / 12⌉ = 2^31
strictly exceeds the only threshold 2^31 - 1 of the bonus table, yet the
saturating `as i32` cast clamps the lookup key to 2^31 - 1, the lookup
finds that top entry and `TaxConfig::calc` succeeds instead of failing. -/
theorem c6_counterexample_saturated_key_succeeds :
    (0 : ℚ) ≤ (⟨0, 0, 12 * 2 ^ 31, 0⟩ : Record).year_bonus ∧
    (∀ p ∈ [((2 ^ 31 - 1 : ℤ), (1 : ℚ)/10)],
      p.1 < ⌈(⟨0, 0, 12 * 2 ^ 31, 0⟩ : Record).year_bonus / 12⌉) ∧
    TaxConfig.calcTax ⟨[], [(2 ^ 31 - 1, 1/10)]⟩ ⟨0, 0, 12 * 2 ^ 31, 0⟩ =
      some ⟨0, (1/10) * (12 * 2 ^ 31)⟩ := by
  refine ⟨by norm_num, by norm_num, ?_⟩
  norm_num [TaxConfig.calcTax, TaxConfig.salaryTax, lookupGE, bonusKey, satI32,
    salaryLoop, totalSalary]

/-! ## Adjust-step lemmas -/

theorem adjust_fields (r : Record) (bud : ℚ) (r2 : Record)
    (h : r.adjust bud = some r2) :
    r2.movement + r2.year_bonus = r.movement + r.year_bonus ∧
    r.movement ≤ r2.movement ∧ r2.year_bonus ≤ r.year_bonus ∧
    0 ≤ r2.year_bonus := by
  unfold Record.adjust at h
  by_cases hb : 0 < min r.year_bonus bud
  · rw [if_pos hb] at h
    have hmin : min r.year_bonus bud ≤ r.year_bonus := min_le_left _ _
    cases h
    dsimp only
    refine ⟨by ring, by linarith, by linarith, by linarith⟩
  · rw [if_neg hb] at h
    cases h

theorem adjustIter_chain (n : Nat) : ∀ r r2 : Record,
    adjustIter n r = some r2 →
    r2.movement + r2.year_bonus = r.movement + r.year_bonus ∧
    r.movement ≤ r2.movement ∧ r2.year_bonus ≤ r.year_bonus := by
  induction n with
  | zero =>
    intro r r2 h
    cases h
    exact ⟨rfl, le_refl _, le_refl _⟩
  | succ n ih =>
    intro r r2 h
    unfold adjustIter at h
    cases hadj : r.adjust 10 with
    | none => rw [hadj] at h; cases h
    | some rmid =>
      rw [hadj] at h
      obtain ⟨s1, m1, y1, _⟩ := adjust_fields r 10 rmid hadj
      obtain ⟨s2, m2, y2⟩ := ih rmid r2 h
      exact ⟨by linarith, le_trans m1 m2, le_trans y2 y1⟩

/-! ## Claim C4: conservation across the sweep's adjust steps -/

/-- C4: starting from movement 0 and nonnegative bonus, after any number
of successful adjust steps the sum movement + year_bonus equals the
original year_bonus, movement never decreases and year_bonus never
increases. -/
theorem c4_adjust_conservation (r : Record) (n : Nat) (r2 : Record)
    (hm : r.movement = 0) (hy : 0 ≤ r.year_bonus)
    (h : adjustIter n r = some r2) :
    r2.movement + r2.year_bonus = r.year_bonus ∧
    r.movement ≤ r2.movement ∧ r2.year_bonus ≤ r.year_bonus := by
  obtain ⟨hsum, hmov, hyb⟩ := adjustIter_chain n r r2 h
  rw [hm, zero_add] at hsum
  exact ⟨hsum, hmov, hyb⟩

/-- Witness for C4: two steps starting from a bonus of 15. -/
theorem c4_adjust_conservation_witness :
    (⟨0, 0, 15, 0⟩ : Record).movement = 0 ∧
    (0 : ℚ) ≤ (⟨0, 0, 15, 0⟩ : Record).year_bonus ∧
    adjustIter 2 ⟨0, 0, 15, 0⟩ = some ⟨0, 0, 0, 15⟩ ∧
    ((⟨0, 0, 0, 15⟩ : Record).movement + (⟨0, 0, 0, 15⟩ : Record).year_bonus =
        (⟨0, 0, 15, 0⟩ : Record).year_bonus ∧
      (⟨0, 0, 15, 0⟩ : Record).movement ≤ (⟨0, 0, 0, 15⟩ : Record).movement ∧
      (⟨0, 0, 0, 15⟩ : Record).year_bonus ≤ (⟨0, 0, 15, 0⟩ : Record).year_bonus) := by
  have hrun : adjustIter 2 ⟨0, 0, 15, 0⟩ = some ⟨0, 0, 0, 15⟩ := by
    norm_num [adjustIter, Record.adjust]
  exact ⟨rfl, by norm_num,
    hrun, c4_adjust_conservation ⟨0, 0, 15, 0⟩ 2 ⟨0, 0, 0, 15⟩ rfl (by norm_num) hrun⟩

/-! ## Claim C10: adjust never fails under the loop guard -/

/-- C10: whenever the optimizer's guard `year_bonus > 0` holds, the
adjust step with the fixed budget 10 succeeds — `min(year_bonus, 10)` is
strictly positive — so the `InvalidBudgetError` branch is unreachable
during the sweep. -/
theorem c10_adjust_succeeds_under_guard (r : Record)
    (h : 0 < r.year_bonus) : (r.adjust 10).isSome := by
  have hb : 0 < min r.year_bonus 10 := lt_min h (by norm_num)
  unfold Record.adjust
  simp only [if_pos hb, Option.isSome_some]

/-- Witness for C10 at a bonus of 3. -/
theorem c10_adjust_succeeds_under_guard_witness :
    (0 : ℚ) < (⟨0, 0, 3, 0⟩ : Record).year_bonus ∧
    ((⟨0, 0, 3, 0⟩ : Record).adjust 10).isSome :=
  ⟨by norm_num, c10_adjust_succeeds_under_guard ⟨0, 0, 3, 0⟩ (by norm_num)⟩

/-! ## Optimizer lemmas -/

theorem optLoop_total_le (c : TaxConfig) : ∀ (n : Nat) (r : Record)
    (best : Tax) (mv : ℚ) (b : Tax) (m : ℚ),
    optLoop c n r best mv = some (b, m) → b.total ≤ best.total := by
  intro n
  induction n with
  | zero =>
    intro r best mv b m h
    unfold optLoop at h
    by_cases hg : 0 < r.year_bonus
    · rw [if_pos hg] at h; cases h
    · rw [if_neg hg] at h; cases h; exact le_refl _
  | succ n ih =>
    intro r best mv b m h
    unfold optLoop at h
    split at h
    · split at h
      · cases h
      · split at h
        · cases h
        · split at h
          · rename_i hlt
            exact le_trans (ih _ _ _ _ _ h) (le_of_lt hlt)
          · exact ih _ _ _ _ _ h
    · cases h; exact le_refl _

/-! ## Claim C3: the best total never exceeds the baseline -/

/-- C3: starting the sweep from the baseline tax `t0` of the input record
(best replaced only on a strictly smaller total, so ties keep the
first-seen best), whenever the loop completes, the best total is ≤ the
baseline total. -/
theorem c3_best_le_baseline (c : TaxConfig) (r0 : Record) (t0 : Tax)
    (n : Nat) (b : Tax) (m : ℚ)
    (hbase : c.calcTax r0 = some t0)
    (hrun : optLoop c n r0 t0 0 = some (b, m)) :
    b.total ≤ t0.total :=
  optLoop_total_le c n r0 t0 0 b m hrun

/-- Witness for C3: a record with no bonus, so the sweep stops at once
with the baseline itself. -/
theorem c3_best_le_baseline_witness :
    TaxConfig.calcTax ⟨[(100, 1/10)], [(2, 1/10)]⟩ ⟨0, 0, 0, 0⟩ = some ⟨0, 0⟩ ∧
    optLoop ⟨[(100, 1/10)], [(2, 1/10)]⟩ 0 ⟨0, 0, 0, 0⟩ ⟨0, 0⟩ 0 = some (⟨0, 0⟩, 0) ∧
    (⟨0, 0⟩ : Tax).total ≤ (⟨0, 0⟩ : Tax).total := by
  have hbase : TaxConfig.calcTax ⟨[(100, 1/10)], [(2, 1/10)]⟩ ⟨0, 0, 0, 0⟩ =
      some ⟨0, 0⟩ := by
    norm_num [TaxConfig.calcTax, TaxConfig.salaryTax, lookupGE, bonusKey, satI32,
      salaryLoop, totalSalary]
  have hrun : optLoop ⟨[(100, 1/10)], [(2, 1/10)]⟩ 0 ⟨0, 0, 0, 0⟩ ⟨0, 0⟩ 0 =
      some (⟨0, 0⟩, 0) := by
    norm_num [optLoop]
  exact ⟨hbase, hrun,
    c3_best_le_baseline ⟨[(100, 1/10)], [(2, 1/10)]⟩ ⟨0, 0, 0, 0⟩ ⟨0, 0⟩ 0 ⟨0, 0⟩ 0
      hbase hrun⟩

theorem calcTax_isSome_iff (c : TaxConfig) (r : Record) :
    (c.calcTax r).isSome ↔ (lookupGE c.year_bonus (bonusKey r)).isSome := by
  unfold TaxConfig.calcTax
  cases lookupGE c.year_bonus (bonusKey r) <;> simp

theorem adjust_pos_eq (r : Record) (h : 0 < r.year_bonus) :
    r.adjust 10 = some { r with year_bonus := r.year_bonus - min r.year_bonus 10,
                                movement := r.movement + min r.year_bonus 10 } := by
  have hb : 0 < min r.year_bonus 10 := lt_min h (by norm_num)
  unfold Record.adjust
  rw [if_pos hb]

theorem optLoop_completes (c : TaxConfig) : ∀ (n : Nat) (r : Record)
    (best : Tax) (mv : ℚ),
    0 ≤ r.year_bonus →
    Int.toNat ⌈r.year_bonus / 10⌉ ≤ n →
    (∃ p ∈ c.year_bonus, bonusKey r ≤ p.1) →
    (optLoop c n r best mv).isSome := by
  intro n
  induction n with
  | zero =>
    intro r best mv h0 hn hex
    have hng : ¬ 0 < r.year_bonus := by
      intro hpos
      have h2 : (0 : ℤ) < ⌈r.year_bonus / 10⌉ := Int.ceil_pos.mpr (by positivity)
      have h3 : ⌈r.year_bonus / 10⌉ ≤ 0 := Int.toNat_eq_zero.mp (Nat.le_zero.mp hn)
      linarith
    simp [optLoop, hng]
  | succ n ih =>
    intro r best mv h0 hn hex
    by_cases hg : 0 < r.year_bonus
    case neg => simp [optLoop, hg]
    case pos =>
      have hadj := adjust_pos_eq r hg
      set r2 : Record := { r with year_bonus := r.year_bonus - min r.year_bonus 10,
                                  movement := r.movement + min r.year_bonus 10 } with hr2
      have hy2 : r2.year_bonus = r.year_bonus - min r.year_bonus 10 := rfl
      have h02 : 0 ≤ r2.year_bonus := by
        rw [hy2]
        have := min_le_left r.year_bonus 10
        linarith
      have hle : r2.year_bonus ≤ r.year_bonus := by
        rw [hy2]
        have : (0 : ℚ) < min r.year_bonus 10 := lt_min hg (by norm_num)
        linarith
      have hex2 : ∃ p ∈ c.year_bonus, bonusKey r2 ≤ p.1 := by
        obtain ⟨p, hp, hkp⟩ := hex
        exact ⟨p, hp, le_trans (bonusKey_le_of_le r2 r hle) hkp⟩
      have hn2 : Int.toNat ⌈r2.year_bonus / 10⌉ ≤ n := by
        rcases le_or_lt r.year_bonus 10 with hc | hc
        · rw [hy2, min_eq_left hc]
          simp
        · rw [hy2, min_eq_right hc.le]
          have hdiv : (r.year_bonus - 10) / 10 = r.year_bonus / 10 - 1 := by ring
          have hceil : ⌈r.year_bonus / 10 - 1⌉ = ⌈r.year_bonus / 10⌉ - 1 := by
            simp
          rw [hdiv, hceil]
          have hpos : (0 : ℤ) < ⌈r.year_bonus / 10⌉ := Int.ceil_pos.mpr (by positivity)
          omega
      have hcs : (c.calcTax r2).isSome :=
        (calcTax_isSome_iff c r2).mpr ((lookupGE_isSome_iff _ _).mpr hex2)
      obtain ⟨v, hv⟩ := Option.isSome_iff_exists.mp hcs
      unfold optLoop
      rw [if_pos hg, hadj]
      dsimp only
      rw [hv]
      dsimp only
      split
      · exact ih r2 v r2.movement h02 hn2 hex2
      · exact ih r2 best mv h02 hn2 hex2

/-! ## Claim C9: the sweep terminates -/

/-- C9: with a nonnegative bonus (exact arithmetic) and a baseline
calculation that succeeds, the optimizer loop needs at most
⌈year_bonus / 10⌉ iterations to reach `year_bonus ≤ 0` and stop; in
particular, with `year_bonus = 0` it stops with zero iterations,
returning the incoming best tax and movement unchanged. -/
theorem c9_sweep_terminates (c : TaxConfig) (r : Record) (best : Tax) (mv : ℚ)
    (h0 : 0 ≤ r.year_bonus)
    (hbase : (c.calcTax r).isSome) :
    (optLoop c (Int.toNat ⌈r.year_bonus / 10⌉) r best mv).isSome ∧
    (r.year_bonus = 0 → optLoop c 0 r best mv = some (best, mv)) := by
  constructor
  · apply optLoop_completes c _ r best mv h0 (le_refl _)
    exact (lookupGE_isSome_iff _ _).mp ((calcTax_isSome_iff c r).mp hbase)
  · intro hz
    simp [optLoop, hz]

/-- Witness for C9: bonus 24 against a one-bracket bonus table. -/
theorem c9_sweep_terminates_witness :
    (0 : ℚ) ≤ (⟨0, 0, 24, 0⟩ : Record).year_bonus ∧
    (TaxConfig.calcTax ⟨[], [(2, 1/10)]⟩ ⟨0, 0, 24, 0⟩).isSome ∧
    ((optLoop ⟨[], [(2, 1/10)]⟩
        (Int.toNat ⌈(⟨0, 0, 24, 0⟩ : Record).year_bonus / 10⌉)
        ⟨0, 0, 24, 0⟩ ⟨0, 0⟩ 0).isSome ∧
      ((⟨0, 0, 24, 0⟩ : Record).year_bonus = 0 →
        optLoop ⟨[], [(2, 1/10)]⟩ 0 ⟨0, 0, 24, 0⟩ ⟨0, 0⟩ 0 = some (⟨0, 0⟩, 0))) := by
  have hbase : (TaxConfig.calcTax ⟨[], [(2, 1/10)]⟩ ⟨0, 0, 24, 0⟩).isSome := by
    norm_num [TaxConfig.calcTax, lookupGE, bonusKey, satI32]
  exact ⟨by norm_num, hbase,
    c9_sweep_terminates ⟨[], [(2, 1/10)]⟩ ⟨0, 0, 24, 0⟩ ⟨0, 0⟩ 0 (by norm_num) hbase⟩

/-! ## Configuration-parsing lemmas -/

theorem parseRulesAux_isSome (rules : List RawRule) : ∀ acc : List (ℤ × ℚ),
    (parseRulesAux acc rules).isSome ↔
      ∀ e ∈ rules, e.bound.isSome ∧ e.rate.isSome := by
  induction rules with
  | nil => intro acc; simp [parseRulesAux]
  | cons e rest ih =>
    intro acc
    cases hb : e.bound with
    | none => simp [parseRulesAux, hb]
    | some b =>
      cases hr : e.rate with
      | none => simp [parseRulesAux, hb, hr]
      | some v => simp [parseRulesAux, hb, hr, ih]

/-! ## Claim C7: empty sections and duplicate thresholds -/

/-- C7 counterexample: a configuration whose two sections both carry an
empty rule list is accepted — construction yields empty tables instead of
failing. -/
theorem c7_counterexample_empty_succeeds :
    TaxConfig.tryFrom ⟨some [], some []⟩ = some ⟨[], []⟩ := rfl

/-- C7 amended: construction performs no emptiness check — a section
succeeds exactly when every rule entry carries both a bound and a ratio
(so the empty list succeeds, yielding an empty table), and duplicate
thresholds silently overwrite, the later entry winning. -/
theorem c7_amended_parse_behavior (rules : List RawRule) (k : ℤ) (v w : ℚ) :
    ((parseRules rules).isSome ↔
      ∀ e ∈ rules, e.bound.isSome ∧ e.rate.isSome) ∧
    parseRules [⟨some k, some v⟩, ⟨some k, some w⟩] = some [(wrap32 k, w)] ∧
    TaxConfig.tryFrom ⟨some [], some []⟩ = some ⟨[], []⟩ := by
  refine ⟨parseRulesAux_isSome rules [], ?_, rfl⟩
  simp [parseRules, parseRulesAux, mapInsert]

/-! ## Record-parsing lemmas -/

theorem collectTokens_isSome (tokens : List (Option ℚ)) :
    (collectTokens tokens).isSome ↔ ∀ t ∈ tokens, t.isSome := by
  induction tokens with
  | nil => simp [collectTokens]
  | cons t rest ih =>
    cases t with
    | none => simp [collectTokens]
    | some v => simp [collectTokens, ih]

theorem collectTokens_some (tokens : List (Option ℚ)) : ∀ vals : List ℚ,
    collectTokens tokens = some vals →
    vals.length = tokens.length ∧
    ∀ i : Nat, tokens.get? i = (vals.get? i).map some := by
  induction tokens with
  | nil =>
    intro vals h
    cases h
    simp
  | cons t rest ih =>
    intro vals h
    cases t with
    | none => simp [collectTokens] at h
    | some v =>
      rw [collectTokens] at h
      cases hr : collectTokens rest with
      | none => rw [hr, Option.map_none'] at h; cases h
      | some vs =>
        rw [hr, Option.map_some'] at h
        cases h
        obtain ⟨hl, hg⟩ := ih vs hr
        constructor
        · simp [hl]
        · intro i
          cases i with
          | zero => simp
          | succ i => simpa using hg i

/-! ## Claim C8: record parsing -/

/-- C8 counterexample: a command line with four numeric tokens parses
successfully (the fourth token is parsed, then ignored), refuting
"parsing succeeds exactly when it supplies the three tokens". -/
theorem c8_counterexample_four_tokens :
    parse_record [some 1, some 2, some 3, some 4] = some ⟨1, 2, 3, 0⟩ ∧
    [some (1 : ℚ), some 2, some 3, some 4].length ≠ 3 := by
  constructor
  · rfl
  · simp

/-- C8 amended: parsing succeeds exactly when every comma-split token is
numeric and there are at least three of them; the record is built from the
first three tokens (extra tokens are parsed but ignored) with movement 0.
With all-numeric tokens but fewer than three, the failure is an
out-of-bounds indexing panic rather than a parse error (both modelled as
`none`). -/
theorem c8_amended_parse_record (tokens : List (Option ℚ)) :
    ((parse_record tokens).isSome ↔
      (∀ t ∈ tokens, t.isSome) ∧ 3 ≤ tokens.length) ∧
    ∀ r : Record, parse_record tokens = some r →
      r.movement = 0 ∧
      tokens.get? 0 = some (some r.monthly_salary) ∧
      tokens.get? 1 = some (some r.monthly_tax_deduction) ∧
      tokens.get? 2 = some (some r.year_bonus) := by
  unfold parse_record
  cases hcol : collectTokens tokens with
  | none =>
    dsimp only
    have hns : ¬ ∀ t ∈ tokens, t.isSome := by
      intro hall
      have hs := (collectTokens_isSome tokens).mpr hall
      rw [hcol] at hs
      simp at hs
    refine ⟨by simp [hns], fun r hr => by cases hr⟩
  | some vals =>
    dsimp only
    obtain ⟨hlen, hget⟩ := collectTokens_some tokens vals hcol
    have hall : ∀ t ∈ tokens, t.isSome := by
      have hs : (collectTokens tokens).isSome := by rw [hcol]; rfl
      exact (collectTokens_isSome tokens).mp hs
    by_cases h3 : 3 ≤ vals.length
    · have h0 : vals.get? 0 = some (vals.get ⟨0, by omega⟩) := List.get?_eq_get (by omega)
      have h1 : vals.get? 1 = some (vals.get ⟨1, by omega⟩) := List.get?_eq_get (by omega)
      have h2 : vals.get? 2 = some (vals.get ⟨2, by omega⟩) := List.get?_eq_get (by omega)
      rw [h0, h1, h2]
      dsimp only
      constructor
      · simp only [Option.isSome_some, true_iff]
        exact ⟨hall, hlen ▸ h3⟩
      · intro r hr
        cases hr
        refine ⟨rfl, ?_, ?_, ?_⟩
        · rw [hget 0, h0]; rfl
        · rw [hget 1, h1]; rfl
        · rw [hget 2, h2]; rfl
    · have h2 : vals.get? 2 = none := List.get?_eq_none.mpr (by omega)
      have hlt : ¬ 3 ≤ tokens.length := by
        rw [← hlen]; omega
      rw [h2]
      constructor
      · cases h0 : vals.get? 0 <;> cases h1 : vals.get? 1 <;> simp [hlt]
      · intro r hr
        exfalso
        cases h0 : vals.get? 0 <;> cases h1 : vals.get? 1 <;>
          rw [h0, h1] at hr <;> cases hr

/-- Witness for the amended C7 at an empty section and a duplicated
threshold 3. -/
theorem c7_amended_parse_behavior_witness :
    ((parseRules []).isSome ↔
      ∀ e ∈ ([] : List RawRule), e.bound.isSome ∧ e.rate.isSome) ∧
    parseRules [⟨some 3, some (1/2)⟩, ⟨some 3, some (1/4)⟩] =
      some [(wrap32 3, 1/4)] ∧
    TaxConfig.tryFrom ⟨some [], some []⟩ = some ⟨[], []⟩ :=
  c7_amended_parse_behavior [] 3 (1/2) (1/4)

/-- Witness for the amended C8 at a three-token numeric command line. -/
theorem c8_amended_parse_record_witness :
    ((parse_record [some 1, some 2, some 5]).isSome ↔
      (∀ t ∈ [some (1 : ℚ), some 2, some 5], t.isSome) ∧
        3 ≤ [some (1 : ℚ), some 2, some 5].length) ∧
    ∀ r : Record, parse_record [some 1, some 2, some 5] = some r →
      r.movement = 0 ∧
      [some (1 : ℚ), some 2, some 5].get? 0 = some (some r.monthly_salary) ∧
      [some (1 : ℚ), some 2, some 5].get? 1 = some (some r.monthly_tax_deduction) ∧
      [some (1 : ℚ), some 2, some 5].get? 2 = some (some r.year_bonus) :=
  c8_amended_parse_record [some 1, some 2, some 5]
